import Mathlib

/-!
Verification development for the warp orchestration and chunking subsystem
of `alg/gdalwarpoperation.cpp` (class `GDALWarpOperation`).

C `double` values are modelled as exact rationals (`ℚ`); C `int` values as
`ℤ`.  The arithmetic on `ℚ` is performed through the kernel-reducible
wrappers `qadd`, `qsub`, `qmul`, `qneg` (each proved equal to the
corresponding field operation), so that every definition evaluates on
concrete inputs.
-/

/-- Kernel-reducible addition on `ℚ` (equal to `+`, see `qadd_eq`). -/
def qadd (a b : ℚ) : ℚ := mkRat (a.num * b.den + b.num * a.den) (a.den * b.den)

/-- Kernel-reducible multiplication on `ℚ` (equal to `*`, see `qmul_eq`). -/
def qmul (a b : ℚ) : ℚ := mkRat (a.num * b.num) (a.den * b.den)

/-- Kernel-reducible negation on `ℚ` (equal to `-·`, see `qneg_eq`). -/
def qneg (a : ℚ) : ℚ := mkRat (-a.num) a.den

/-- Kernel-reducible subtraction on `ℚ` (equal to `-`, see `qsub_eq`). -/
def qsub (a b : ℚ) : ℚ := qadd a (qneg b)

/-! ## Enumerations and opaque collaborator data

Raster data types (`GDALDataType`) and resampling algorithms
(`GDALResampleAlg`) are C enumerations; they are modelled by their integer
values. -/

/-- Enumeration value `GDT_Unknown`. -/
def GDT_Unknown : ℤ := 0

/-- Enumeration value `GDT_Byte`. -/
def GDT_Byte : ℤ := 1

/-- Enumeration value `GDT_TypeCount` (one past the last valid type). -/
def GDT_TypeCount : ℤ := 12

/-- Enumeration value `GRA_NearestNeighbour`. -/
def GRA_NearestNeighbour : ℤ := 0

/-- Enumeration value `GRA_Bilinear`. -/
def GRA_Bilinear : ℤ := 1

/-- Enumeration value `GRA_Cubic`. -/
def GRA_Cubic : ℤ := 2

/-- Modelled from the spec: a raster dataset handle, reduced to the
observations the warp operation makes of it: its raster dimensions, its
band count (`GDALGetRasterCount`) and, per band index, whether the band is
read-only (`GDALGetRasterAccess == GA_ReadOnly`).  The raster I/O layer
itself is out of scope (spec section 1). -/
structure Dataset where
  rasterCount : ℤ
  rasterXSize : ℤ
  rasterYSize : ℤ
  bandReadOnly : ℤ → Bool

/-- Result of the coordinate transformer for one sample point: the
per-point success flag written into `pabSuccess` and the transformed
`x`/`y` coordinates written in place into `padfX`/`padfY`. -/
structure TransformedPoint where
  success : Bool
  x : ℚ
  y : ℚ
deriving DecidableEq

/-- Modelled from the spec: the coordinate transformer collaborator
(`GDALTransformerFunc`, spec section 6), called with `bDstToSrc = TRUE` on a
batch of points.  `none` is whole-batch failure (the C function returning
`FALSE`); otherwise one `TransformedPoint` per input point. -/
def TransformerFunc : Type :=
  List (ℚ × ℚ) → Option (List TransformedPoint)

/-- The warp options record (`GDALWarpOptions`), restricted to the fields
this file reads.  Nullable C pointers become `Option`/`Bool` fields;
mask-generator hooks are only ever tested against `NULL` here, so they are
presence flags. -/
structure WarpOptions where
  dfWarpMemoryLimit : ℚ
  eResampleAlg : ℤ
  eWorkingDataType : ℤ
  hSrcDS : Option Dataset
  hDstDS : Option Dataset
  nBandCount : ℤ
  panSrcBands : Option (List ℤ)
  panDstBands : Option (List ℤ)
  padfSrcNoDataReal : Option (List ℚ)
  padfSrcNoDataImag : Option (List ℚ)
  padfDstNoDataReal : Option (List ℚ)
  padfDstNoDataImag : Option (List ℚ)
  pfnSrcDensityMaskFunc : Bool
  papfnSrcPerBandValidityMaskFunc : Bool
  pfnSrcValidityMaskFunc : Bool
  pfnDstDensityMaskFunc : Bool
  pfnDstValidityMaskFunc : Bool
  pfnTransformer : Option TransformerFunc
  pfnProgress : Bool

/-- Modelled from the spec: `GDALGetDataTypeSize`, the bit width of a
raster type (a GDAL core collaborator, not part of `src/`); the memory
cost model multiplies it by the band count (spec section 4.3). -/
def gdalGetDataTypeSize (t : ℤ) : ℤ :=
  if t = 1 then 8        -- GDT_Byte
  else if t = 2 then 16  -- GDT_UInt16
  else if t = 3 then 16  -- GDT_Int16
  else if t = 4 then 32  -- GDT_UInt32
  else if t = 5 then 32  -- GDT_Int32
  else if t = 6 then 32  -- GDT_Float32
  else if t = 7 then 64  -- GDT_Float64
  else if t = 8 then 32  -- GDT_CInt16
  else if t = 9 then 64  -- GDT_CInt32
  else if t = 10 then 64 -- GDT_CFloat32
  else if t = 11 then 128 -- GDT_CFloat64
  else 0

/-! ## ComputeSourceWindow (lines 1018-1144)

The estimator walks the edges of the destination rectangle, transforms the
sample points to source coordinates, and derives a padded, clipped source
window from the bounding box of the surviving points. -/

/-- One iteration step of the sample-point loop of `ComputeSourceWindow`
(lines 1031-1057): while `dfRatio <= 1.01`, snap `dfRatio > 0.99` to `1.0`,
emit the four edge points (top, bottom, left, right), and advance by
`0.05`.  The `fuel` argument is a recursion bound only; `samplePoints`
supplies enough fuel for the loop to run to its natural exit. -/
def sampleLoop (dx dy dw dh : ℚ) : ℕ → ℚ → List (ℚ × ℚ)
  | 0, _ => []
  | fuel + 1, t =>
    if t ≤ mkRat 101 100 then
      let t' := if t > mkRat 99 100 then 1 else t
      (qadd (qmul t' dw) dx, dy) ::
      (qadd (qmul t' dw) dx, qadd dy dh) ::
      (dx, qadd (qmul t' dh) dy) ::
      (qadd dw dx, qadd (qmul t' dh) dy) ::
      sampleLoop dx dy dw dh fuel (qadd t' (mkRat 1 20))
    else []

/-- The 84 sample points of `ComputeSourceWindow` for destination window
`(dx, dy, dw, dh)`. -/
def samplePoints (dx dy dw dh : ℚ) : List (ℚ × ℚ) :=
  sampleLoop dx dy dw dh 64 0

/-- The ratio values `dfRatio` takes across the loop iterations, produced
by the same control flow as `sampleLoop`. -/
def ratioLoop : ℕ → ℚ → List ℚ
  | 0, _ => []
  | fuel + 1, t =>
    if t ≤ mkRat 101 100 then
      let t' := if t > mkRat 99 100 then 1 else t
      t' :: ratioLoop fuel (qadd t' (mkRat 1 20))
    else []

/-- The 21 sample ratios `{0.00, 0.05, ..., 0.95, 1.00}`. -/
def sampleRatios : List ℚ := ratioLoop 64 0

/-- Running bounding box of the surviving transformed points
(`dfMinXOut`, `dfMinYOut`, `dfMaxXOut`, `dfMaxYOut`). -/
structure Bounds where
  minX : ℚ
  minY : ℚ
  maxX : ℚ
  maxY : ℚ
deriving DecidableEq

/-- The loop of lines 1081-1102: accumulate the bounding box of successful
points (`none` while no point has succeeded yet, mirroring
`bGotInitialPoint`) and count the failed points. -/
def collectBounds : List TransformedPoint → Option Bounds → ℤ → Option Bounds × ℤ
  | [], acc, failed => (acc, failed)
  | p :: rest, acc, failed =>
    if p.success then
      match acc with
      | none => collectBounds rest (some ⟨p.x, p.y, p.x, p.y⟩) failed
      | some b =>
          collectBounds rest
            (some ⟨min b.minX p.x, min b.minY p.y, max b.maxX p.x, max b.maxY p.y⟩)
            failed
    else
      collectBounds rest acc (failed + 1)

/-- Resampling half-width (`nResWinSize`, lines 1125-1131): `0` unless the
algorithm is Bilinear (`1`) or Cubic (`2`). -/
def resWinSize (eResampleAlg : ℤ) : ℤ :=
  let n : ℤ := 0
  let n := if eResampleAlg = GRA_Bilinear then 1 else n
  if eResampleAlg = GRA_Cubic then 2 else n

/-- A source window `(nSrcXOff, nSrcYOff, nSrcXSize, nSrcYSize)`. -/
structure SrcWindow where
  xOff : ℤ
  yOff : ℤ
  xSize : ℤ
  ySize : ℤ
deriving DecidableEq

/-- `GDALWarpOperation::ComputeSourceWindow` (lines 1018-1144). `none` is
`CE_Failure`.  A `none` transformer field would be a null-pointer call in C
(excluded by validation) and is modelled as failure; the `none` bounds
branch after the failed-count check corresponds to reading the
uninitialized bound variables, which the check makes unreachable for the
84-point sample (at least 10 points succeeded). -/
def computeSourceWindow (o : WarpOptions) (dstXOff dstYOff dstXSize dstYSize : ℤ) :
    Option SrcWindow :=
  let pts := samplePoints (dstXOff : ℚ) (dstYOff : ℚ) (dstXSize : ℚ) (dstYSize : ℚ)
  match o.pfnTransformer with
  | none => none
  | some tr =>
    match tr pts with
    | none => none
    | some results =>
      let n : ℤ := (pts.length : ℤ)
      let cb := collectBounds results none 0
      if cb.2 > n - 10 then none
      else
        match cb.1 with
        | none => none
        | some b =>
          let r := resWinSize o.eResampleAlg
          let srcW := (o.hSrcDS.map Dataset.rasterXSize).getD 0
          let srcH := (o.hSrcDS.map Dataset.rasterYSize).getD 0
          let sx := max 0 (⌊b.minX⌋ + r)
          let sy := max 0 (⌊b.minY⌋ + r)
          some ⟨sx, sy,
                min (srcW - sx) (⌈b.maxX⌉ - sx + r),
                min (srcH - sy) (⌈b.maxY⌉ - sy + r)⟩

/-- Whether `ComputeSourceWindow` reaches the `CPLDebug` call of lines
1113-1116: the per-point path was taken, the failed-count check passed,
and at least one point failed. -/
def computeSourceWindowLogsDebug (o : WarpOptions)
    (dstXOff dstYOff dstXSize dstYSize : ℤ) : Bool :=
  let pts := samplePoints (dstXOff : ℚ) (dstYOff : ℚ) (dstXSize : ℚ) (dstYSize : ℚ)
  match o.pfnTransformer with
  | none => false
  | some tr =>
    match tr pts with
    | none => false
    | some results =>
      let n : ℤ := (pts.length : ℤ)
      let cb := collectBounds results none 0
      decide (¬ cb.2 > n - 10 ∧ cb.2 > 0)

/-! ## Helper lemmas about the bounds-collection loop -/

/-- One step of the bounding-box update applied to an already-initialized
box (the `else` branch of lines 1095-1101). -/
def updBounds (b : Bounds) (p : TransformedPoint) : Bounds :=
  if p.success then
    ⟨min b.minX p.x, min b.minY p.y, max b.maxX p.x, max b.maxY p.y⟩
  else b

/-- The `x` coordinates of the surviving (successfully transformed) points. -/
def survivorsX (l : List TransformedPoint) : List ℚ :=
  (l.filter fun p => p.success).map TransformedPoint.x

/-- The `y` coordinates of the surviving points. -/
def survivorsY (l : List TransformedPoint) : List ℚ :=
  (l.filter fun p => p.success).map TransformedPoint.y

/-- A value is the least element of a list of rationals. -/
def IsLeastOf (m : ℚ) (xs : List ℚ) : Prop := m ∈ xs ∧ ∀ q ∈ xs, m ≤ q

/-- A value is the greatest element of a list of rationals. -/
def IsGreatestOf (m : ℚ) (xs : List ℚ) : Prop := m ∈ xs ∧ ∀ q ∈ xs, q ≤ m

instance instDecIsLeastOf (m : ℚ) (xs : List ℚ) : Decidable (IsLeastOf m xs) :=
  inferInstanceAs (Decidable (m ∈ xs ∧ ∀ q ∈ xs, m ≤ q))

instance instDecIsGreatestOf (m : ℚ) (xs : List ℚ) : Decidable (IsGreatestOf m xs) :=
  inferInstanceAs (Decidable (m ∈ xs ∧ ∀ q ∈ xs, q ≤ m))

/-- A transformer for which every edge sample point succeeds and whose
image has bounding box `[100.3, 200.7] x [50.2, 60.9]`. -/
def trCubicDemo : TransformerFunc := fun ps =>
  some (ps.enum.map fun ip =>
    if ip.1 = 0 then ⟨true, mkRat 1003 10, mkRat 502 10⟩
    else if ip.1 = 1 then ⟨true, mkRat 2007 10, mkRat 609 10⟩
    else ⟨true, 150, 55⟩)

/-- Options selecting Cubic resampling over a 300x300 source with the
demo transformer. -/
def oCubicDemo : WarpOptions where
  dfWarpMemoryLimit := 100000
  eResampleAlg := GRA_Cubic
  eWorkingDataType := GDT_Byte
  hSrcDS := some ⟨1, 300, 300, fun _ => false⟩
  hDstDS := some ⟨1, 300, 300, fun _ => false⟩
  nBandCount := 1
  panSrcBands := some [1]
  panDstBands := some [1]
  padfSrcNoDataReal := none
  padfSrcNoDataImag := none
  padfDstNoDataReal := none
  padfDstNoDataImag := none
  pfnSrcDensityMaskFunc := false
  papfnSrcPerBandValidityMaskFunc := false
  pfnSrcValidityMaskFunc := false
  pfnDstDensityMaskFunc := false
  pfnDstValidityMaskFunc := false
  pfnTransformer := some trCubicDemo
  pfnProgress := true

/-- The transformed points produced by `trCubicDemo` on the 84 sample
points of the destination window `(0, 0, 100, 100)`. -/
def resultsCubicDemo : List TransformedPoint :=
  (trCubicDemo (samplePoints 0 0 100 100)).getD []

/-- Transformer for which every point fails. -/
def trAllFailDemo : TransformerFunc := fun ps =>
  some (ps.map fun _ => ⟨false, 0, 0⟩)

/-- Transformer for which exactly the first 10 points succeed. -/
def trTenDemo : TransformerFunc := fun ps =>
  some (ps.enum.map fun ip =>
    if ip.1 < 10 then ⟨true, 100, 100⟩ else ⟨false, 0, 0⟩)

/-- Options with the all-points-fail transformer. -/
def oAllFailDemo : WarpOptions :=
  { oCubicDemo with pfnTransformer := some trAllFailDemo }

/-- Options with the exactly-10-points-survive transformer. -/
def oTenDemo : WarpOptions :=
  { oCubicDemo with pfnTransformer := some trTenDemo }

/-- The transformed points of `trAllFailDemo` on the 84 sample points. -/
def resultsAllFailDemo : List TransformedPoint :=
  (trAllFailDemo (samplePoints 0 0 100 100)).getD []

/-- The transformed points of `trTenDemo` on the 84 sample points. -/
def resultsTenDemo : List TransformedPoint :=
  (trTenDemo (samplePoints 0 0 100 100)).getD []

/-- Modelled from the spec: the claimed containment property of the
estimated source window, "contained in `[0, src_W] x [0, src_H]` and has
non-negative size" (spec section 8, invariant 5). -/
def srcWindowInBounds (srcW srcH : ℤ) (w : SrcWindow) : Prop :=
  0 ≤ w.xOff ∧ 0 ≤ w.yOff ∧ 0 ≤ w.xSize ∧ 0 ≤ w.ySize
  ∧ w.xOff + w.xSize ≤ srcW ∧ w.yOff + w.ySize ≤ srcH

/-- Transformer mapping every point to `(400, 100)`, entirely right of a
300x300 source raster. -/
def trFarDemo : TransformerFunc := fun ps =>
  some (ps.map fun _ => ⟨true, 400, 100⟩)

/-- Nearest-neighbour options over a 300x300 source with the far-off
transformer. -/
def oFarDemo : WarpOptions :=
  { oCubicDemo with eResampleAlg := GRA_NearestNeighbour,
                    pfnTransformer := some trFarDemo }

/-- The per-band checks of `ValidateOptions` (lines 241-272): every source
band index within `[1, source raster count]`, every destination band index
within `[1, destination raster count]`, and no destination band
read-only. -/
def bandsOK (o : WarpOptions) (srcDS dstDS : Dataset) : Bool :=
  (List.range o.nBandCount.toNat).all fun iBand =>
    let sb := (o.panSrcBands.getD []).getD iBand 0
    let db := (o.panDstBands.getD []).getD iBand 0
    decide (1 ≤ sb) && decide (sb ≤ srcDS.rasterCount)
      && decide (1 ≤ db) && decide (db ≤ dstDS.rasterCount)
      && !(dstDS.bandReadOnly db)

/-- `GDALWarpOperation::ValidateOptions` (lines 168-308) on a non-null
options record, with the checks in source order.  Note the working-type
check of lines 199-200 is translated verbatim with the `&&` of the
source, which makes its condition unsatisfiable. -/
def validateOptions (o : WarpOptions) : Bool :=
  if o.dfWarpMemoryLimit < 100000 then false
  else if o.eResampleAlg ≠ GRA_NearestNeighbour ∧ o.eResampleAlg ≠ GRA_Bilinear
          ∧ o.eResampleAlg ≠ GRA_Cubic then false
  else if o.eWorkingDataType < 1 ∧ GDT_TypeCount ≤ o.eWorkingDataType then false
  else
    match o.hSrcDS, o.hDstDS with
    | none, _ => false
    | some _, none => false
    | some srcDS, some dstDS =>
      if o.nBandCount = 0 then false
      else if o.panSrcBands.isNone ∨ o.panDstBands.isNone then false
      else if ¬ (bandsOK o srcDS dstDS = true) then false
      else if o.nBandCount = 0 then false
      else if o.padfSrcNoDataReal.isSome ∧ o.padfSrcNoDataImag.isNone then false
      else if ¬ o.pfnProgress then false
      else if o.pfnTransformer.isNone then false
      else true

/-- Modelled from the spec: "Working type is a known raster type" (spec
section 3) — a raster type enumeration member other than `GDT_Unknown`
and below `GDT_TypeCount`. -/
def isKnownRasterType (t : ℤ) : Bool :=
  decide (1 ≤ t) && decide (t < GDT_TypeCount)

/-- An otherwise-valid options record whose working type is the
out-of-range enumeration value `GDT_TypeCount`. -/
def oBadTypeDemo : WarpOptions :=
  { oCubicDemo with eWorkingDataType := GDT_TypeCount }

/-- An otherwise-valid options record with a destination no-data real
sequence but no imaginary sequence. -/
def oBadDstNoDataDemo : WarpOptions :=
  { oCubicDemo with padfDstNoDataReal := some [5], padfDstNoDataImag := none }

/-! ## ChunkAndWarpImage (lines 436-551)

The chunker computes the source window for the requested destination
rectangle, prices the chunk in bits per pixel on each side, and either
recurses on two halves of the longer destination dimension or hands the
chunk to `WarpRegion`.  `WarpRegion` and everything below it never touch
`dfProgressBase`/`dfProgressScale`, so it is modelled as an opaque
function from the chunk windows and the progress state to an outcome. -/

/-- The two CPL outcome values. -/
inductive CPLErr where
  | ceNone : CPLErr
  | ceFailure : CPLErr
deriving DecidableEq

/-- A destination rectangle `(nDstXOff, nDstYOff, nDstXSize, nDstYSize)`. -/
structure DstRect where
  xOff : ℤ
  yOff : ℤ
  xSize : ℤ
  ySize : ℤ
deriving DecidableEq

/-- The progress composition state of the operation
(`dfProgressBase`, `dfProgressScale`). -/
structure WarpState where
  dfProgressBase : ℚ
  dfProgressScale : ℚ
deriving DecidableEq

/-- Result of a `ChunkAndWarpImage` call: the returned `CPLErr`, the
progress state after the call, and the list of destination/source window
pairs on which `WarpRegion` was invoked, in invocation order. -/
structure ChunkOutcome where
  err : CPLErr
  state : WarpState
  leaves : List (DstRect × SrcWindow)
deriving DecidableEq

/-- `nSrcPixelCostInBits` (lines 457-471). -/
def srcPixelCostInBits (o : WarpOptions) : ℤ :=
  let c := gdalGetDataTypeSize o.eWorkingDataType * o.nBandCount
  let c := if o.pfnSrcDensityMaskFunc then c + 32 else c
  let c := if o.papfnSrcPerBandValidityMaskFunc || o.padfSrcNoDataReal.isSome
           then c + o.nBandCount else c
  if o.pfnSrcValidityMaskFunc then c + 1 else c

/-- `nDstPixelCostInBits` (lines 476-487). -/
def dstPixelCostInBits (o : WarpOptions) : ℤ :=
  let c := gdalGetDataTypeSize o.eWorkingDataType * o.nBandCount
  let c := if o.pfnDstDensityMaskFunc then c + 32 else c
  if o.padfDstNoDataReal.isSome || o.pfnDstValidityMaskFunc then c + o.nBandCount else c

/-- `dfTotalMemoryUse` (lines 494-498): division by `8.0` is written as
multiplication by the exact rational `1/8`. -/
def totalMemoryUse (srcCost dstCost : ℤ) (sw : SrcWindow) (r : DstRect) : ℚ :=
  qmul (qadd (qmul (qmul (srcCost : ℚ) (sw.xSize : ℚ)) (sw.ySize : ℚ))
             (qmul (qmul (dstCost : ℚ) (r.xSize : ℚ)) (r.ySize : ℚ)))
       (mkRat 1 8)

/-- `GDALWarpOperation::ChunkAndWarpImage` (lines 436-551), with the
member state `(dfProgressBase, dfProgressScale)` threaded explicitly and
every `WarpRegion` invocation recorded.  The split saves the state,
halves the scale, recurses on the lower half of the longer dimension,
advances the base before the upper half, and restores the saved state
before returning. -/
def chunkAndWarpImage (o : WarpOptions)
    (warpRegion : DstRect → SrcWindow → WarpState → CPLErr)
    (r : DstRect) (st : WarpState) : ChunkOutcome :=
  match computeSourceWindow o r.xOff r.yOff r.xSize r.ySize with
  | none => ⟨CPLErr.ceFailure, st, []⟩
  | some sw =>
    if _hmem : totalMemoryUse (srcPixelCostInBits o) (dstPixelCostInBits o) sw r
                > o.dfWarpMemoryLimit
              ∧ (r.xSize > 2 ∨ r.ySize > 2) then
      let st0 : WarpState := ⟨st.dfProgressBase, qmul st.dfProgressScale (mkRat 1 2)⟩
      if _hx : r.xSize > r.ySize then
        let nChunk1 := r.xSize / 2
        let out1 := chunkAndWarpImage o warpRegion ⟨r.xOff, r.yOff, nChunk1, r.ySize⟩ st0
        if out1.err = CPLErr.ceNone then
          let out2 := chunkAndWarpImage o warpRegion
            ⟨r.xOff + nChunk1, r.yOff, r.xSize - nChunk1, r.ySize⟩
            ⟨qadd out1.state.dfProgressBase out1.state.dfProgressScale,
             out1.state.dfProgressScale⟩
          ⟨out2.err, st, out1.leaves ++ out2.leaves⟩
        else
          ⟨out1.err, st, out1.leaves⟩
      else
        let nChunk1 := r.ySize / 2
        let out1 := chunkAndWarpImage o warpRegion ⟨r.xOff, r.yOff, r.xSize, nChunk1⟩ st0
        if out1.err = CPLErr.ceNone then
          let out2 := chunkAndWarpImage o warpRegion
            ⟨r.xOff, r.yOff + nChunk1, r.xSize, r.ySize - nChunk1⟩
            ⟨qadd out1.state.dfProgressBase out1.state.dfProgressScale,
             out1.state.dfProgressScale⟩
          ⟨out2.err, st, out1.leaves ++ out2.leaves⟩
        else
          ⟨out1.err, st, out1.leaves⟩
    else
      ⟨warpRegion r sw st, st, [(r, sw)]⟩
termination_by (r.xSize.toNat + r.ySize.toNat)
decreasing_by
  all_goals omega

/-- A region executor that always succeeds. -/
def wrOK : DstRect → SrcWindow → WarpState → CPLErr := fun _ _ _ => CPLErr.ceNone

/-- The spec's source-side bits-per-pixel account (spec section 4.3),
written as a sum of contributions. -/
def specSrcBitsPerPixel (o : WarpOptions) : ℤ :=
  gdalGetDataTypeSize o.eWorkingDataType * o.nBandCount
  + (if o.pfnSrcDensityMaskFunc then 32 else 0)
  + (if o.papfnSrcPerBandValidityMaskFunc || o.padfSrcNoDataReal.isSome
     then o.nBandCount else 0)
  + (if o.pfnSrcValidityMaskFunc then 1 else 0)

/-- The spec's destination-side bits-per-pixel account (spec
section 4.3). -/
def specDstBitsPerPixel (o : WarpOptions) : ℤ :=
  gdalGetDataTypeSize o.eWorkingDataType * o.nBandCount
  + (if o.pfnDstDensityMaskFunc then 32 else 0)
  + (if o.padfDstNoDataReal.isSome || o.pfnDstValidityMaskFunc
     then o.nBandCount else 0)

/-- The spec's total memory cost
`(src_bits_per_pixel * sw * sh + dst_bits_per_pixel * dw * dh) / 8`. -/
def specTotalBytes (o : WarpOptions) (sw : SrcWindow) (r : DstRect) : ℚ :=
  ((specSrcBitsPerPixel o : ℚ) * (sw.xSize : ℚ) * (sw.ySize : ℚ)
   + (specDstBitsPerPixel o : ℚ) * (r.xSize : ℚ) * (r.ySize : ℚ)) / 8

/-- Pixel membership in a destination rectangle. -/
def memRect (p : ℤ × ℤ) (r : DstRect) : Prop :=
  r.xOff ≤ p.1 ∧ p.1 < r.xOff + r.xSize ∧ r.yOff ≤ p.2 ∧ p.2 < r.yOff + r.ySize

instance instDecMemRect (p : ℤ × ℤ) (r : DstRect) : Decidable (memRect p r) :=
  inferInstanceAs (Decidable (_ ∧ _ ∧ _ ∧ _))

/-- The destination rectangles of `leaves` tile `r` exactly: pairwise
disjoint, and their union is precisely the pixel set of `r`. -/
def TilesExactly (leaves : List (DstRect × SrcWindow)) (r : DstRect) : Prop :=
  List.Pairwise (fun a b => ∀ p : ℤ × ℤ, ¬ (memRect p a.1 ∧ memRect p b.1)) leaves
  ∧ ∀ p : ℤ × ℤ, memRect p r ↔ ∃ l ∈ leaves, memRect p l.1

/-! ## CreateKernelMask (lines 922-1010) -/

/-- ASCII lower-casing of a character code, as used by CPL's
case-insensitive `EQUAL`. -/
def asciiLowerNat (n : ℕ) : ℕ := if 65 ≤ n ∧ n ≤ 90 then n + 32 else n

/-- CPL's case-insensitive string equality `EQUAL`. -/
def cplEqual (a b : String) : Bool :=
  (a.data.map fun c => asciiLowerNat c.toNat)
    = (b.data.map fun c => asciiLowerNat c.toNat)

/-- The mask-plane state of a `GDALWarpKernel`, with each allocated plane
modelled as its list of byte values and un-allocated planes as `none`. -/
structure GDALWarpKernel where
  nBands : ℤ
  nSrcXSize : ℤ
  nSrcYSize : ℤ
  nDstXSize : ℤ
  nDstYSize : ℤ
  papanBandSrcValid : Option (List (Option (List ℕ)))
  panUnifiedSrcValid : Option (List ℕ)
  pafUnifiedSrcDensity : Option (List ℕ)
  panDstValid : Option (List ℕ)
  pafDstDensity : Option (List ℕ)
deriving DecidableEq

/-- `nBytes` of lines 989-994: `W*H*4` for a 32-bit plane, else the
byte-packed `(W*H + 7) / 8`. -/
def maskBytes (nXSize nYSize nBitsPerPixel : ℤ) : ℤ :=
  if nBitsPerPixel = 32 then nXSize * nYSize * 4 else (nXSize * nYSize + 7) / 8

/-- A freshly allocated mask buffer: `nBytes` bytes, byte-wise memset with
the default fill value (lines 996-1006; allocation is assumed to
succeed). -/
def newMask (nXSize nYSize nBitsPerPixel nDefault : ℤ) : List ℕ :=
  List.replicate (maskBytes nXSize nYSize nBitsPerPixel).toNat nDefault.toNat

/-- `GDALWarpOperation::CreateKernelMask` (lines 922-1010).  The band
index is only meaningful for `BandSrcValid` (a valid call has
`0 <= iBand < nBands`; the list is indexed at `iBand.toNat`).  Unknown
names are the internal error of lines 976-982. -/
def createKernelMask (k : GDALWarpKernel) (iBand : ℤ) (pszType : String) :
    CPLErr × GDALWarpKernel :=
  if cplEqual pszType "BandSrcValid" then
    let outer := k.papanBandSrcValid.getD (List.replicate k.nBands.toNat none)
    match outer.getD iBand.toNat none with
    | some _ => (CPLErr.ceNone, { k with papanBandSrcValid := some outer })
    | none =>
        let mask := newMask k.nSrcXSize k.nSrcYSize 1 0xff
        (CPLErr.ceNone,
         { k with papanBandSrcValid := some (outer.set iBand.toNat (some mask)) })
  else if cplEqual pszType "UnifiedSrcValid" then
    match k.panUnifiedSrcValid with
    | some _ => (CPLErr.ceNone, k)
    | none =>
        (CPLErr.ceNone,
         { k with panUnifiedSrcValid := some (newMask k.nSrcXSize k.nSrcYSize 1 0xff) })
  else if cplEqual pszType "UnifiedSrcDensity" then
    match k.pafUnifiedSrcDensity with
    | some _ => (CPLErr.ceNone, k)
    | none =>
        (CPLErr.ceNone,
         { k with pafUnifiedSrcDensity := some (newMask k.nSrcXSize k.nSrcYSize 32 0) })
  else if cplEqual pszType "DstValid" then
    match k.panDstValid with
    | some _ => (CPLErr.ceNone, k)
    | none =>
        (CPLErr.ceNone,
         { k with panDstValid := some (newMask k.nDstXSize k.nDstYSize 1 0xff) })
  else if cplEqual pszType "DstDensity" then
    match k.pafDstDensity with
    | some _ => (CPLErr.ceNone, k)
    | none =>
        (CPLErr.ceNone,
         { k with pafDstDensity := some (newMask k.nDstXSize k.nDstYSize 32 0) })
  else (CPLErr.ceFailure, k)

/-- The five mask names `CreateKernelMask` recognizes. -/
def knownMaskName (t : String) : Bool :=
  cplEqual t "BandSrcValid" || cplEqual t "UnifiedSrcValid"
    || cplEqual t "UnifiedSrcDensity" || cplEqual t "DstValid"
    || cplEqual t "DstDensity"

/-- The outer per-band pointer array after `CreateKernelMask` allocates
`BandSrcValid[b]`: the (lazily created) array with slot `b` set to a
`ceil(src_W * src_H / 8)`-byte buffer filled with `0xFF`. -/
def bandSrcValidAlloc (k : GDALWarpKernel) (b : ℤ) : List (Option (List ℕ)) :=
  (k.papanBandSrcValid.getD (List.replicate k.nBands.toNat none)).set b.toNat
    (some (List.replicate ((k.nSrcXSize * k.nSrcYSize + 7) / 8).toNat 255))

/-- A kernel with 2 bands, a 4x3 source window and a 5x2 destination
window, with no mask planes allocated. -/
def kDemo : GDALWarpKernel := ⟨2, 4, 3, 5, 2, none, none, none, none, none⟩

/-! ## Theorems -/

theorem qadd_eq (a b : ℚ) : qadd a b = a + b := by
  rw [qadd, Rat.mkRat_eq_div]
  have ha : (a.den : ℚ) ≠ 0 := by exact_mod_cast a.den_nz
  have hb : (b.den : ℚ) ≠ 0 := by exact_mod_cast b.den_nz
  push_cast
  have h : (a.num : ℚ) / a.den + (b.num : ℚ) / b.den = a + b := by
    rw [Rat.num_div_den, Rat.num_div_den]
  rw [div_add_div _ _ ha hb] at h
  rw [← h]
  congr 1
  ring

theorem qmul_eq (a b : ℚ) : qmul a b = a * b := by
  rw [qmul, Rat.mkRat_eq_div]
  push_cast
  have h : (a.num : ℚ) / a.den * ((b.num : ℚ) / b.den) = a * b := by
    rw [Rat.num_div_den, Rat.num_div_den]
  rw [div_mul_div_comm] at h
  exact h

theorem qneg_eq (a : ℚ) : qneg a = -a := by
  rw [qneg, Rat.mkRat_eq_div]
  push_cast
  rw [neg_div, Rat.num_div_den]

theorem qsub_eq (a b : ℚ) : qsub a b = a - b := by
  rw [qsub, qadd_eq, qneg_eq, sub_eq_add_neg]

/-! ## Helper lemmas about the sample loop -/

theorem sampleLoop_eq_flatMap (dx dy dw dh : ℚ) :
    ∀ (fuel : ℕ) (t : ℚ),
      sampleLoop dx dy dw dh fuel t =
        (ratioLoop fuel t).flatMap (fun r =>
          [(qadd (qmul r dw) dx, dy),
           (qadd (qmul r dw) dx, qadd dy dh),
           (dx, qadd (qmul r dh) dy),
           (qadd dw dx, qadd (qmul r dh) dy)]) := by
  intro fuel
  induction fuel with
  | zero => intro t; simp [sampleLoop, ratioLoop]
  | succ n ih =>
    intro t
    rw [sampleLoop, ratioLoop]
    by_cases h : t ≤ mkRat 101 100
    · rw [if_pos h, if_pos h]
      simp only [List.flatMap_cons, ih, List.cons_append, List.nil_append]
    · rw [if_neg h, if_neg h]
      simp

theorem sampleRatios_length : sampleRatios.length = 21 := by decide

theorem sampleLoop_length (dx dy dw dh : ℚ) :
    ∀ (fuel : ℕ) (t : ℚ),
      (sampleLoop dx dy dw dh fuel t).length = 4 * (ratioLoop fuel t).length := by
  intro fuel
  induction fuel with
  | zero => intro t; simp [sampleLoop, ratioLoop]
  | succ n ih =>
    intro t
    rw [sampleLoop, ratioLoop]
    by_cases h : t ≤ mkRat 101 100
    · rw [if_pos h, if_pos h]
      simp only [List.length_cons, ih]
      ring
    · rw [if_neg h, if_neg h]
      simp

theorem samplePoints_length (dx dy dw dh : ℚ) :
    (samplePoints dx dy dw dh).length = 84 := by
  rw [samplePoints, sampleLoop_length]
  have h : (ratioLoop 64 0).length = 21 := sampleRatios_length
  rw [h]

theorem collectBounds_failed :
    ∀ (l : List TransformedPoint) (acc : Option Bounds) (f : ℤ),
      (collectBounds l acc f).2 = f + ((l.filter fun p => !p.success).length : ℤ) := by
  intro l
  induction l with
  | nil => intro acc f; simp [collectBounds]
  | cons p rest ih =>
    intro acc f
    simp only [collectBounds]
    by_cases hp : p.success
    · rw [if_pos hp]
      cases acc with
      | none => rw [ih]; simp [List.filter_cons, hp]
      | some b => rw [ih]; simp [List.filter_cons, hp]
    · rw [if_neg hp, ih]
      simp [List.filter_cons, hp]
      omega

theorem collectBounds_some :
    ∀ (l : List TransformedPoint) (b : Bounds) (f : ℤ),
      (collectBounds l (some b) f).1 = some (l.foldl updBounds b) := by
  intro l
  induction l with
  | nil => intro b f; simp [collectBounds]
  | cons p rest ih =>
    intro b f
    simp only [collectBounds, List.foldl_cons, updBounds]
    by_cases hp : p.success
    · rw [if_pos hp, if_pos hp, ih]
    · rw [if_neg hp, if_neg hp, ih]

theorem length_filter_success_split (l : List TransformedPoint) :
    (l.filter fun p => p.success).length + (l.filter fun p => !p.success).length
      = l.length := by
  induction l with
  | nil => simp
  | cons p rest ih =>
    by_cases hp : p.success <;> simp [List.filter_cons, hp, ih] <;> omega

theorem foldl_updBounds_minX (l : List TransformedPoint) :
    ∀ (b : Bounds),
      (l.foldl updBounds b).minX
        = l.foldl (fun m p => if p.success then min m p.x else m) b.minX := by
  induction l with
  | nil => intro b; simp
  | cons p rest ih =>
    intro b
    simp only [List.foldl_cons, updBounds]
    by_cases hp : p.success
    · rw [if_pos hp, if_pos hp, ih]
    · rw [if_neg hp, if_neg hp, ih]

theorem foldl_updBounds_minY (l : List TransformedPoint) :
    ∀ (b : Bounds),
      (l.foldl updBounds b).minY
        = l.foldl (fun m p => if p.success then min m p.y else m) b.minY := by
  induction l with
  | nil => intro b; simp
  | cons p rest ih =>
    intro b
    simp only [List.foldl_cons, updBounds]
    by_cases hp : p.success
    · rw [if_pos hp, if_pos hp, ih]
    · rw [if_neg hp, if_neg hp, ih]

theorem foldl_updBounds_maxX (l : List TransformedPoint) :
    ∀ (b : Bounds),
      (l.foldl updBounds b).maxX
        = l.foldl (fun m p => if p.success then max m p.x else m) b.maxX := by
  induction l with
  | nil => intro b; simp
  | cons p rest ih =>
    intro b
    simp only [List.foldl_cons, updBounds]
    by_cases hp : p.success
    · rw [if_pos hp, if_pos hp, ih]
    · rw [if_neg hp, if_neg hp, ih]

theorem foldl_updBounds_maxY (l : List TransformedPoint) :
    ∀ (b : Bounds),
      (l.foldl updBounds b).maxY
        = l.foldl (fun m p => if p.success then max m p.y else m) b.maxY := by
  induction l with
  | nil => intro b; simp
  | cons p rest ih =>
    intro b
    simp only [List.foldl_cons, updBounds]
    by_cases hp : p.success
    · rw [if_pos hp, if_pos hp, ih]
    · rw [if_neg hp, if_neg hp, ih]

theorem foldlMin_le_init (g : TransformedPoint → ℚ) :
    ∀ (l : List TransformedPoint) (a : ℚ),
      l.foldl (fun m p => if p.success then min m (g p) else m) a ≤ a := by
  intro l
  induction l with
  | nil => intro a; simp
  | cons p rest ih =>
    intro a
    simp only [List.foldl_cons]
    by_cases hp : p.success
    · rw [if_pos hp]
      exact le_trans (ih _) (min_le_left _ _)
    · rw [if_neg hp]
      exact ih a

theorem foldlMin_le_mem (g : TransformedPoint → ℚ) :
    ∀ (l : List TransformedPoint) (a : ℚ) (p : TransformedPoint),
      p ∈ l → p.success →
        l.foldl (fun m q => if q.success then min m (g q) else m) a ≤ g p := by
  intro l
  induction l with
  | nil => intro a p hp; simp at hp
  | cons q rest ih =>
    intro a p hp hps
    simp only [List.foldl_cons]
    rcases List.mem_cons.mp hp with h | h
    · subst h
      rw [if_pos hps]
      exact le_trans (foldlMin_le_init g rest _) (min_le_right _ _)
    · by_cases hq : q.success
      · rw [if_pos hq]; exact ih _ p h hps
      · rw [if_neg hq]; exact ih _ p h hps

theorem foldlMin_mem (g : TransformedPoint → ℚ) :
    ∀ (l : List TransformedPoint) (a : ℚ),
      l.foldl (fun m p => if p.success then min m (g p) else m) a = a
      ∨ ∃ p ∈ l, p.success
          ∧ l.foldl (fun m p => if p.success then min m (g p) else m) a = g p := by
  intro l
  induction l with
  | nil => intro a; left; simp
  | cons q rest ih =>
    intro a
    simp only [List.foldl_cons]
    by_cases hq : q.success
    · rw [if_pos hq]
      rcases ih (min a (g q)) with h | ⟨p, hp, hps, h⟩
      · rcases min_choice a (g q) with hm | hm
        · left; rw [h, hm]
        · right; exact ⟨q, List.mem_cons_self q rest, hq, by rw [h, hm]⟩
      · right; exact ⟨p, List.mem_cons_of_mem q hp, hps, h⟩
    · rw [if_neg hq]
      rcases ih a with h | ⟨p, hp, hps, h⟩
      · left; exact h
      · right; exact ⟨p, List.mem_cons_of_mem q hp, hps, h⟩

theorem foldlMax_ge_init (g : TransformedPoint → ℚ) :
    ∀ (l : List TransformedPoint) (a : ℚ),
      a ≤ l.foldl (fun m p => if p.success then max m (g p) else m) a := by
  intro l
  induction l with
  | nil => intro a; simp
  | cons p rest ih =>
    intro a
    simp only [List.foldl_cons]
    by_cases hp : p.success
    · rw [if_pos hp]
      exact le_trans (le_max_left _ _) (ih _)
    · rw [if_neg hp]
      exact ih a

theorem foldlMax_ge_mem (g : TransformedPoint → ℚ) :
    ∀ (l : List TransformedPoint) (a : ℚ) (p : TransformedPoint),
      p ∈ l → p.success →
        g p ≤ l.foldl (fun m q => if q.success then max m (g q) else m) a := by
  intro l
  induction l with
  | nil => intro a p hp; simp at hp
  | cons q rest ih =>
    intro a p hp hps
    simp only [List.foldl_cons]
    rcases List.mem_cons.mp hp with h | h
    · subst h
      rw [if_pos hps]
      exact le_trans (le_max_right _ _) (foldlMax_ge_init g rest _)
    · by_cases hq : q.success
      · rw [if_pos hq]; exact ih _ p h hps
      · rw [if_neg hq]; exact ih _ p h hps

theorem foldlMax_mem (g : TransformedPoint → ℚ) :
    ∀ (l : List TransformedPoint) (a : ℚ),
      l.foldl (fun m p => if p.success then max m (g p) else m) a = a
      ∨ ∃ p ∈ l, p.success
          ∧ l.foldl (fun m p => if p.success then max m (g p) else m) a = g p := by
  intro l
  induction l with
  | nil => intro a; left; simp
  | cons q rest ih =>
    intro a
    simp only [List.foldl_cons]
    by_cases hq : q.success
    · rw [if_pos hq]
      rcases ih (max a (g q)) with h | ⟨p, hp, hps, h⟩
      · rcases max_choice a (g q) with hm | hm
        · left; rw [h, hm]
        · right; exact ⟨q, List.mem_cons_self q rest, hq, by rw [h, hm]⟩
      · right; exact ⟨p, List.mem_cons_of_mem q hp, hps, h⟩
    · rw [if_neg hq]
      rcases ih a with h | ⟨p, hp, hps, h⟩
      · left; exact h
      · right; exact ⟨p, List.mem_cons_of_mem q hp, hps, h⟩

theorem foldlMin_isLeast (g : TransformedPoint → ℚ) (l : List TransformedPoint) (a : ℚ) :
    IsLeastOf (l.foldl (fun m p => if p.success then min m (g p) else m) a)
      (a :: (l.filter fun p => p.success).map g) := by
  constructor
  · rcases foldlMin_mem g l a with h | ⟨p, hp, hps, h⟩
    · rw [h]; exact List.mem_cons_self _ _
    · rw [h]
      exact List.mem_cons_of_mem _
        (List.mem_map.mpr ⟨p, List.mem_filter.mpr ⟨hp, by simp [hps]⟩, rfl⟩)
  · intro v hv
    rcases List.mem_cons.mp hv with h | h
    · rw [h]; exact foldlMin_le_init g l a
    · rcases List.mem_map.mp h with ⟨q, hq, rfl⟩
      have hq' := List.mem_filter.mp hq
      exact foldlMin_le_mem g l a q hq'.1 (by simpa using hq'.2)

theorem foldlMax_isGreatest (g : TransformedPoint → ℚ) (l : List TransformedPoint) (a : ℚ) :
    IsGreatestOf (l.foldl (fun m p => if p.success then max m (g p) else m) a)
      (a :: (l.filter fun p => p.success).map g) := by
  constructor
  · rcases foldlMax_mem g l a with h | ⟨p, hp, hps, h⟩
    · rw [h]; exact List.mem_cons_self _ _
    · rw [h]
      exact List.mem_cons_of_mem _
        (List.mem_map.mpr ⟨p, List.mem_filter.mpr ⟨hp, by simp [hps]⟩, rfl⟩)
  · intro v hv
    rcases List.mem_cons.mp hv with h | h
    · rw [h]; exact foldlMax_ge_init g l a
    · rcases List.mem_map.mp h with ⟨q, hq, rfl⟩
      have hq' := List.mem_filter.mp hq
      exact foldlMax_ge_mem g l a q hq'.1 (by simpa using hq'.2)

theorem collectBounds_none_spec :
    ∀ (l : List TransformedPoint) (f : ℤ),
      (∃ p ∈ l, p.success = true) →
      ∃ b, (collectBounds l none f).1 = some b
        ∧ IsLeastOf b.minX (survivorsX l)
        ∧ IsGreatestOf b.maxX (survivorsX l)
        ∧ IsLeastOf b.minY (survivorsY l)
        ∧ IsGreatestOf b.maxY (survivorsY l) := by
  intro l
  induction l with
  | nil => intro f h; simp at h
  | cons p rest ih =>
    intro f hex
    by_cases hp : p.success
    · have hstep : (collectBounds (p :: rest) none f).1
          = some (rest.foldl updBounds ⟨p.x, p.y, p.x, p.y⟩) := by
        simp only [collectBounds, if_pos hp]
        exact collectBounds_some rest _ f
      refine ⟨rest.foldl updBounds ⟨p.x, p.y, p.x, p.y⟩, hstep, ?_, ?_, ?_, ?_⟩
      · rw [foldl_updBounds_minX]
        have hx : survivorsX (p :: rest)
            = p.x :: (rest.filter fun q => q.success).map TransformedPoint.x := by
          simp [survivorsX, List.filter_cons, hp]
        rw [hx]
        exact foldlMin_isLeast TransformedPoint.x rest p.x
      · rw [foldl_updBounds_maxX]
        have hx : survivorsX (p :: rest)
            = p.x :: (rest.filter fun q => q.success).map TransformedPoint.x := by
          simp [survivorsX, List.filter_cons, hp]
        rw [hx]
        exact foldlMax_isGreatest TransformedPoint.x rest p.x
      · rw [foldl_updBounds_minY]
        have hy : survivorsY (p :: rest)
            = p.y :: (rest.filter fun q => q.success).map TransformedPoint.y := by
          simp [survivorsY, List.filter_cons, hp]
        rw [hy]
        exact foldlMin_isLeast TransformedPoint.y rest p.y
      · rw [foldl_updBounds_maxY]
        have hy : survivorsY (p :: rest)
            = p.y :: (rest.filter fun q => q.success).map TransformedPoint.y := by
          simp [survivorsY, List.filter_cons, hp]
        rw [hy]
        exact foldlMax_isGreatest TransformedPoint.y rest p.y
    · have hstep : collectBounds (p :: rest) none f = collectBounds rest none (f + 1) := by
        simp only [collectBounds, if_neg hp]
      have hex' : ∃ q ∈ rest, q.success = true := by
        rcases hex with ⟨q, hq, hqs⟩
        rcases List.mem_cons.mp hq with h | h
        · subst h; exact absurd hqs hp
        · exact ⟨q, h, hqs⟩
      have hsx : survivorsX (p :: rest) = survivorsX rest := by
        simp [survivorsX, List.filter_cons, hp]
      have hsy : survivorsY (p :: rest) = survivorsY rest := by
        simp [survivorsY, List.filter_cons, hp]
      rw [hstep, hsx, hsy]
      exact ih (f + 1) hex'

/-- C1: on any destination rectangle where the transformer succeeds on at
least 10 of the 84 edge sample points, `ComputeSourceWindow` returns
exactly `sx = max(0, floor(min_x) + r)`, `sy = max(0, floor(min_y) + r)`,
`sw = min(src_W - sx, ceil(max_x) - sx + r)`,
`sh = min(src_H - sy, ceil(max_y) - sy + r)`, where the min/max values are
the bounding box of the surviving transformed points and `r` is `0` for
Nearest, `1` for Bilinear and `2` for Cubic. -/
theorem c1_computeSourceWindow_formula
    (o : WarpOptions) (tr : TransformerFunc) (dx dy dw dh : ℤ)
    (results : List TransformedPoint) (minX maxX minY maxY : ℚ)
    (htr : o.pfnTransformer = some tr)
    (hres : tr (samplePoints (dx : ℚ) (dy : ℚ) (dw : ℚ) (dh : ℚ)) = some results)
    (hlen : results.length = 84)
    (hsurv : 10 ≤ (results.filter fun p => p.success).length)
    (hminX : IsLeastOf minX (survivorsX results))
    (hmaxX : IsGreatestOf maxX (survivorsX results))
    (hminY : IsLeastOf minY (survivorsY results))
    (hmaxY : IsGreatestOf maxY (survivorsY results)) :
    resWinSize GRA_NearestNeighbour = 0 ∧ resWinSize GRA_Bilinear = 1
    ∧ resWinSize GRA_Cubic = 2
    ∧ computeSourceWindow o dx dy dw dh =
        (let r := resWinSize o.eResampleAlg
         let srcW := (o.hSrcDS.map Dataset.rasterXSize).getD 0
         let srcH := (o.hSrcDS.map Dataset.rasterYSize).getD 0
         let sx := max 0 (⌊minX⌋ + r)
         let sy := max 0 (⌊minY⌋ + r)
         some ⟨sx, sy, min (srcW - sx) (⌈maxX⌉ - sx + r),
               min (srcH - sy) (⌈maxY⌉ - sy + r)⟩) := by
  refine ⟨by decide, by decide, by decide, ?_⟩
  have hexists : ∃ p ∈ results, p.success = true := by
    have hpos : 0 < (results.filter fun p => p.success).length := by omega
    obtain ⟨p, hp⟩ := List.exists_mem_of_length_pos hpos
    exact ⟨p, (List.mem_filter.mp hp).1, by simpa using (List.mem_filter.mp hp).2⟩
  obtain ⟨b, hb, hLx, hGx, hLy, hGy⟩ := collectBounds_none_spec results 0 hexists
  have heq1 : b.minX = minX := le_antisymm (hLx.2 minX hminX.1) (hminX.2 _ hLx.1)
  have heq2 : b.maxX = maxX := le_antisymm (hmaxX.2 _ hGx.1) (hGx.2 maxX hmaxX.1)
  have heq3 : b.minY = minY := le_antisymm (hLy.2 minY hminY.1) (hminY.2 _ hLy.1)
  have heq4 : b.maxY = maxY := le_antisymm (hmaxY.2 _ hGy.1) (hGy.2 maxY hmaxY.1)
  have hfailed : (collectBounds results none 0).2 ≤ 74 := by
    rw [collectBounds_failed]
    have hs := length_filter_success_split results
    omega
  simp only [computeSourceWindow, htr, hres, samplePoints_length]
  split
  · next hgt => exact absurd hgt (by push_cast; omega)
  · rw [hb]
    simp only [heq1, heq2, heq3, heq4]

set_option maxRecDepth 10000 in
/-- Witness for C1: the Cubic instance of the claim; the bounding box is
`[100.3, 200.7] x [50.2, 60.9]`, the source is 300x300, and the window
returned is `sx = 102, sy = 52, sw = 101, sh = 11`. -/
theorem c1_computeSourceWindow_formula_witness :
    computeSourceWindow oCubicDemo 0 0 100 100 = some ⟨102, 52, 101, 11⟩ := by
  have h := c1_computeSourceWindow_formula oCubicDemo trCubicDemo 0 0 100 100
    resultsCubicDemo (mkRat 1003 10) (mkRat 2007 10) (mkRat 502 10) (mkRat 609 10)
    rfl (by decide) (by decide) (by decide)
    (by decide) (by decide) (by decide) (by decide)
  exact h.2.2.2.trans (by decide)

theorem csw_success_of_failed_le
    (o : WarpOptions) (tr : TransformerFunc) (dx dy dw dh : ℤ)
    (results : List TransformedPoint)
    (htr : o.pfnTransformer = some tr)
    (hres : tr (samplePoints (dx : ℚ) (dy : ℚ) (dw : ℚ) (dh : ℚ)) = some results)
    (hlen : results.length = 84)
    (hfail : ((results.filter fun p => !p.success).length : ℤ) ≤ 84 - 10) :
    ∃ w, computeSourceWindow o dx dy dw dh = some w := by
  have hsplit := length_filter_success_split results
  have hexists : ∃ p ∈ results, p.success = true := by
    have hpos : 0 < (results.filter fun p => p.success).length := by omega
    obtain ⟨p, hp⟩ := List.exists_mem_of_length_pos hpos
    exact ⟨p, (List.mem_filter.mp hp).1, by simpa using (List.mem_filter.mp hp).2⟩
  obtain ⟨b, hb, _, _, _, _⟩ := collectBounds_none_spec results 0 hexists
  have hfailed : (collectBounds results none 0).2 ≤ 74 := by
    rw [collectBounds_failed]; omega
  simp only [computeSourceWindow, htr, hres, samplePoints_length]
  split
  · next hgt => exact absurd hgt (by push_cast; omega)
  · rw [hb]
    exact ⟨_, rfl⟩

/-- C7: `ComputeSourceWindow` fails on sample points exactly when more
than `N - 10` of the `N = 84` points fail (fewer than 10 survive), and
logs a debug message (continuing with the survivors) exactly when between
`1` and `N - 10` points fail. -/
theorem c7_computeSourceWindow_failure_threshold
    (o : WarpOptions) (tr : TransformerFunc) (dx dy dw dh : ℤ)
    (results : List TransformedPoint)
    (htr : o.pfnTransformer = some tr)
    (hres : tr (samplePoints (dx : ℚ) (dy : ℚ) (dw : ℚ) (dh : ℚ)) = some results)
    (hlen : results.length = 84) :
    (computeSourceWindow o dx dy dw dh = none
       ↔ (84 : ℤ) - 10 < ((results.filter fun p => !p.success).length : ℤ))
    ∧ (computeSourceWindowLogsDebug o dx dy dw dh = true
       ↔ 0 < ((results.filter fun p => !p.success).length : ℤ)
           ∧ ((results.filter fun p => !p.success).length : ℤ) ≤ (84 : ℤ) - 10) := by
  have hcb : (collectBounds results none 0).2
      = ((results.filter fun p => !p.success).length : ℤ) := by
    rw [collectBounds_failed]; ring
  constructor
  · constructor
    · intro h
      by_contra hno
      push_neg at hno
      obtain ⟨w, hw⟩ := csw_success_of_failed_le o tr dx dy dw dh results htr hres hlen hno
      rw [hw] at h
      exact Option.noConfusion h
    · intro h
      simp only [computeSourceWindow, htr, hres, samplePoints_length]
      split
      · rfl
      · next hle => exact absurd (by rw [hcb]; push_cast; omega) hle
  · simp only [computeSourceWindowLogsDebug, htr, hres, samplePoints_length]
    rw [decide_eq_true_eq, hcb]
    push_cast
    omega

set_option maxRecDepth 10000 in
/-- Witness for C7: with all 84 points failing the estimator fails; with
exactly 10 surviving points it succeeds. -/
theorem c7_computeSourceWindow_failure_threshold_witness :
    computeSourceWindow oAllFailDemo 0 0 100 100 = none
    ∧ computeSourceWindow oTenDemo 0 0 100 100 ≠ none := by
  constructor
  · exact (c7_computeSourceWindow_failure_threshold oAllFailDemo trAllFailDemo
      0 0 100 100 resultsAllFailDemo rfl (by decide) (by decide)).1.mpr (by decide)
  · intro h
    have h10 := (c7_computeSourceWindow_failure_threshold oTenDemo trTenDemo
      0 0 100 100 resultsTenDemo rfl (by decide) (by decide)).1.mp h
    exact absurd h10 (by decide)

set_option maxRecDepth 10000 in
/-- Counterexample to C4 as stated: when every transformed point lands at
`x = 400` beyond the 300-pixel-wide source, the estimator succeeds but
returns the window `(400, 100, -100, 0)`, whose width is negative and
whose origin lies outside `[0, src_W]`. -/
theorem c4_source_window_counterexample :
    computeSourceWindow oFarDemo 0 0 100 100 = some ⟨400, 100, -100, 0⟩
    ∧ ¬ srcWindowInBounds 300 300 ⟨400, 100, -100, 0⟩ := by
  constructor
  · decide
  · intro h
    exact absurd h.2.2.1 (by decide)

theorem add_min_sub_le (sx w b : ℤ) : sx + min (w - sx) b ≤ w := by
  have h := min_le_left (w - sx) b
  omega

/-- C4 (amended): on success the returned source window satisfies
`0 ≤ sx`, `0 ≤ sy`, `sx + sw ≤ src_W` and `sy + sh ≤ src_H`; its sizes
`sw`, `sh` may be negative (and `sx`, `sy` may exceed the source bounds)
when the surviving transformed points lie outside the source raster. -/
theorem c4_source_window_bounds
    (o : WarpOptions) (dx dy dw dh : ℤ) (w : SrcWindow)
    (h : computeSourceWindow o dx dy dw dh = some w) :
    0 ≤ w.xOff ∧ 0 ≤ w.yOff
    ∧ w.xOff + w.xSize ≤ (o.hSrcDS.map Dataset.rasterXSize).getD 0
    ∧ w.yOff + w.ySize ≤ (o.hSrcDS.map Dataset.rasterYSize).getD 0 := by
  simp only [computeSourceWindow] at h
  split at h
  · exact Option.noConfusion h
  · split at h
    · exact Option.noConfusion h
    · split at h
      · exact Option.noConfusion h
      · split at h
        · exact Option.noConfusion h
        · rw [Option.some_inj] at h
          subst h
          dsimp only
          exact ⟨le_max_left _ _, le_max_left _ _,
                 add_min_sub_le _ _ _, add_min_sub_le _ _ _⟩

set_option maxRecDepth 10000 in
/-- Witness for the amended C4: the Cubic demo instance succeeds with
window `(102, 52, 101, 11)`, which satisfies the amended bounds for the
300x300 source. -/
theorem c4_source_window_bounds_witness :
    (0 : ℤ) ≤ 102 ∧ (0 : ℤ) ≤ 52 ∧ (102 : ℤ) + 101 ≤ 300 ∧ (52 : ℤ) + 11 ≤ 300 :=
  c4_source_window_bounds oCubicDemo 0 0 100 100 ⟨102, 52, 101, 11⟩ (by decide)

/-- C8: for every destination rectangle, `ComputeSourceWindow` constructs
exactly 84 sample points: for each of the 21 ratio values
`{0.00, 0.05, ..., 0.95, 1.00}` (the final value produced by snapping any
ratio above `0.99` to `1.0` in a loop advancing by `0.05` while the ratio
is at most `1.01`) it emits the four edge points
`(dx + t*dw, dy)`, `(dx + t*dw, dy + dh)`, `(dx, dy + t*dh)`,
`(dx + dw, dy + t*dh)`, and the asserted point count of 84 always holds. -/
theorem c8_sample_points_structure (dx dy dw dh : ℚ) :
    samplePoints dx dy dw dh =
      sampleRatios.flatMap (fun t =>
        [(dx + t * dw, dy), (dx + t * dw, dy + dh),
         (dx, dy + t * dh), (dx + dw, dy + t * dh)])
    ∧ sampleRatios = [0, 1/20, 1/10, 3/20, 1/5, 1/4, 3/10, 7/20, 2/5, 9/20,
        1/2, 11/20, 3/5, 13/20, 7/10, 3/4, 4/5, 17/20, 9/10, 19/20, 1]
    ∧ (samplePoints dx dy dw dh).length = 84 := by
  refine ⟨?_, ?_, samplePoints_length dx dy dw dh⟩
  · rw [samplePoints, sampleLoop_eq_flatMap, sampleRatios]
    apply congrArg
    funext t
    simp only [qadd_eq, qmul_eq]
    ring_nf
  · have h : sampleRatios = [0, mkRat 1 20, mkRat 1 10, mkRat 3 20, mkRat 1 5,
        mkRat 1 4, mkRat 3 10, mkRat 7 20, mkRat 2 5, mkRat 9 20, mkRat 1 2,
        mkRat 11 20, mkRat 3 5, mkRat 13 20, mkRat 7 10, mkRat 3 4,
        mkRat 4 5, mkRat 17 20, mkRat 9 10, mkRat 19 20, 1] := by decide
    rw [h]
    norm_num [Rat.mkRat_eq_div]

/-- C3 (evaluating the code at the failing inputs): validation accepts a
record whose working type is not a known raster type (the `&&` in the
check of lines 199-200 can never be satisfied, so the check never fires),
and also accepts a record whose destination no-data real sequence is
present while the imaginary one is absent (only the source pair is
checked, lines 282-289). -/
theorem c3_validateOptions_accepts_invalid :
    validateOptions oBadTypeDemo = true
    ∧ isKnownRasterType oBadTypeDemo.eWorkingDataType = false
    ∧ validateOptions oBadDstNoDataDemo = true
    ∧ oBadDstNoDataDemo.padfDstNoDataReal.isSome = true
    ∧ oBadDstNoDataDemo.padfDstNoDataImag.isNone = true := by
  decide

theorem chunk_state_restored (o : WarpOptions)
    (wr : DstRect → SrcWindow → WarpState → CPLErr) (r : DstRect) (st : WarpState) :
    (chunkAndWarpImage o wr r st).state = st := by
  rw [chunkAndWarpImage]
  split
  · rfl
  · split
    · split <;> (dsimp only; split <;> rfl)
    · rfl

/-- C5: for every destination rectangle and every outcome, the values of
`dfProgressBase` and `dfProgressScale` after a `ChunkAndWarpImage` call
equal their values before it: the split path saves both, halves the
scale, advances the base between the halves, and restores both before
returning; the non-split path never modifies them. -/
theorem c5_progress_state_preserved (o : WarpOptions)
    (wr : DstRect → SrcWindow → WarpState → CPLErr) (r : DstRect) (st : WarpState) :
    (chunkAndWarpImage o wr r st).state = st := by
  rw [chunkAndWarpImage]
  split
  · rfl
  · split
    · split <;> (dsimp only; split <;> rfl)
    · rfl

/-- C10: when the source-window estimation fails for a destination
rectangle, `ChunkAndWarpImage` returns failure immediately: no region is
ever handed to `WarpRegion` (so no buffer is allocated, nothing is read
or written and the kernel is never invoked) and the progress state is
exactly as before the call. -/
theorem c10_chunk_fails_before_effects (o : WarpOptions)
    (wr : DstRect → SrcWindow → WarpState → CPLErr) (r : DstRect) (st : WarpState)
    (h : computeSourceWindow o r.xOff r.yOff r.xSize r.ySize = none) :
    chunkAndWarpImage o wr r st = ⟨CPLErr.ceFailure, st, []⟩ := by
  rw [chunkAndWarpImage, h]

set_option maxRecDepth 10000 in
/-- Witness for C10: with the all-points-fail transformer the chunker
fails with no `WarpRegion` invocation and an unchanged progress state. -/
theorem c10_chunk_fails_before_effects_witness :
    chunkAndWarpImage oAllFailDemo wrOK ⟨0, 0, 100, 100⟩ ⟨0, 1⟩
      = ⟨CPLErr.ceFailure, ⟨0, 1⟩, []⟩ :=
  c10_chunk_fails_before_effects oAllFailDemo wrOK ⟨0, 0, 100, 100⟩ ⟨0, 1⟩ (by decide)

theorem srcPixelCostInBits_eq_spec (o : WarpOptions) :
    srcPixelCostInBits o = specSrcBitsPerPixel o := by
  simp only [srcPixelCostInBits, specSrcBitsPerPixel]
  split_ifs <;> omega

theorem dstPixelCostInBits_eq_spec (o : WarpOptions) :
    dstPixelCostInBits o = specDstBitsPerPixel o := by
  simp only [dstPixelCostInBits, specDstBitsPerPixel]
  split_ifs <;> omega

theorem mkRat_one_eighth : (mkRat 1 8 : ℚ) = 1 / 8 := by
  norm_num [Rat.mkRat_eq_div]

theorem mkRat_one_half : (mkRat 1 2 : ℚ) = 1 / 2 := by
  norm_num [Rat.mkRat_eq_div]

theorem totalMemoryUse_eq_spec (o : WarpOptions) (sw : SrcWindow) (r : DstRect) :
    totalMemoryUse (srcPixelCostInBits o) (dstPixelCostInBits o) sw r
      = specTotalBytes o sw r := by
  rw [totalMemoryUse, qmul_eq, qadd_eq, qmul_eq, qmul_eq, qmul_eq, qmul_eq,
      srcPixelCostInBits_eq_spec, dstPixelCostInBits_eq_spec, specTotalBytes,
      mkRat_one_eighth]
  ring

theorem half_scale_eq (s : ℚ) : qmul s (mkRat 1 2) = s / 2 := by
  rw [qmul_eq, mkRat_one_half]
  ring

/-- C2: for every destination rectangle (with its computed source
window), the chunker's memory cost equals
`(src_bits_per_pixel * sw * sh + dst_bits_per_pixel * dw * dh) / 8` with
the per-side bit accounts of the spec, and it recurses (splitting the
longer dimension into `c1 = dim/2` and `c2 = dim - c1`, lower half first
with halved progress scale, advancing the base between halves and
restoring the saved state) exactly when this cost exceeds the memory
budget and `dw > 2` or `dh > 2`; otherwise it invokes the region executor
once on the whole chunk with the already-computed source window. -/
theorem c2_chunk_memory_cost_and_split (o : WarpOptions)
    (wr : DstRect → SrcWindow → WarpState → CPLErr) (r : DstRect) (st : WarpState)
    (sw : SrcWindow)
    (hcsw : computeSourceWindow o r.xOff r.yOff r.xSize r.ySize = some sw) :
    totalMemoryUse (srcPixelCostInBits o) (dstPixelCostInBits o) sw r
      = specTotalBytes o sw r
    ∧ (¬ (specTotalBytes o sw r > o.dfWarpMemoryLimit
            ∧ (r.xSize > 2 ∨ r.ySize > 2)) →
        chunkAndWarpImage o wr r st = ⟨wr r sw st, st, [(r, sw)]⟩)
    ∧ (specTotalBytes o sw r > o.dfWarpMemoryLimit
        ∧ (r.xSize > 2 ∨ r.ySize > 2) →
       r.xSize > r.ySize →
        chunkAndWarpImage o wr r st =
          (let nChunk1 := r.xSize / 2
           let nChunk2 := r.xSize - nChunk1
           let halfScale := st.dfProgressScale / 2
           let out1 := chunkAndWarpImage o wr ⟨r.xOff, r.yOff, nChunk1, r.ySize⟩
                         ⟨st.dfProgressBase, halfScale⟩
           if out1.err = CPLErr.ceNone then
             let out2 := chunkAndWarpImage o wr
                           ⟨r.xOff + nChunk1, r.yOff, nChunk2, r.ySize⟩
                           ⟨st.dfProgressBase + halfScale, halfScale⟩
             ⟨out2.err, st, out1.leaves ++ out2.leaves⟩
           else ⟨out1.err, st, out1.leaves⟩))
    ∧ (specTotalBytes o sw r > o.dfWarpMemoryLimit
        ∧ (r.xSize > 2 ∨ r.ySize > 2) →
       ¬ r.xSize > r.ySize →
        chunkAndWarpImage o wr r st =
          (let nChunk1 := r.ySize / 2
           let nChunk2 := r.ySize - nChunk1
           let halfScale := st.dfProgressScale / 2
           let out1 := chunkAndWarpImage o wr ⟨r.xOff, r.yOff, r.xSize, nChunk1⟩
                         ⟨st.dfProgressBase, halfScale⟩
           if out1.err = CPLErr.ceNone then
             let out2 := chunkAndWarpImage o wr
                           ⟨r.xOff, r.yOff + nChunk1, r.xSize, nChunk2⟩
                           ⟨st.dfProgressBase + halfScale, halfScale⟩
             ⟨out2.err, st, out1.leaves ++ out2.leaves⟩
           else ⟨out1.err, st, out1.leaves⟩)) := by
  refine ⟨totalMemoryUse_eq_spec o sw r, ?_, ?_, ?_⟩
  · intro h
    rw [chunkAndWarpImage, hcsw]
    dsimp only
    rw [dif_neg (by rw [totalMemoryUse_eq_spec]; exact h)]
  · intro h hx
    rw [chunkAndWarpImage, hcsw]
    dsimp only
    rw [dif_pos (by rw [totalMemoryUse_eq_spec]; exact h)]
    rw [dif_pos hx]
    rw [half_scale_eq, chunk_state_restored o wr
      ⟨r.xOff, r.yOff, r.xSize / 2, r.ySize⟩
      ⟨st.dfProgressBase, st.dfProgressScale / 2⟩]
    dsimp only
    rw [qadd_eq]
  · intro h hy
    rw [chunkAndWarpImage, hcsw]
    dsimp only
    rw [dif_pos (by rw [totalMemoryUse_eq_spec]; exact h)]
    rw [dif_neg hy]
    rw [half_scale_eq, chunk_state_restored o wr
      ⟨r.xOff, r.yOff, r.xSize, r.ySize / 2⟩
      ⟨st.dfProgressBase, st.dfProgressScale / 2⟩]
    dsimp only
    rw [qadd_eq]

set_option maxRecDepth 10000 in
/-- Witness for C2: on the Cubic demo chunk the code's memory cost equals
the spec's formula, and because the cost (11111 bytes) is within the
100000-byte budget the chunker invokes the region executor once on the
whole chunk with the already-computed source window. -/
theorem c2_chunk_memory_cost_and_split_witness :
    totalMemoryUse (srcPixelCostInBits oCubicDemo) (dstPixelCostInBits oCubicDemo)
        ⟨102, 52, 101, 11⟩ ⟨0, 0, 100, 100⟩
      = specTotalBytes oCubicDemo ⟨102, 52, 101, 11⟩ ⟨0, 0, 100, 100⟩
    ∧ chunkAndWarpImage oCubicDemo wrOK ⟨0, 0, 100, 100⟩ ⟨0, 1⟩
      = ⟨CPLErr.ceNone, ⟨0, 1⟩, [(⟨0, 0, 100, 100⟩, ⟨102, 52, 101, 11⟩)]⟩ := by
  have h := c2_chunk_memory_cost_and_split oCubicDemo wrOK ⟨0, 0, 100, 100⟩ ⟨0, 1⟩
    ⟨102, 52, 101, 11⟩ (by decide)
  exact ⟨h.1, h.2.1 (by rw [← h.1]; decide)⟩

theorem tiles_combine (r r1 r2 : DstRect) (l1 l2 : List (DstRect × SrcWindow))
    (hcover : ∀ p : ℤ × ℤ, memRect p r ↔ memRect p r1 ∨ memRect p r2)
    (hdisj : ∀ p : ℤ × ℤ, ¬ (memRect p r1 ∧ memRect p r2))
    (h1sub : ∀ l ∈ l1, ∀ p : ℤ × ℤ, memRect p l.1 → memRect p r1)
    (h1tile : TilesExactly l1 r1)
    (h2sub : ∀ l ∈ l2, ∀ p : ℤ × ℤ, memRect p l.1 → memRect p r2)
    (h2tile : TilesExactly l2 r2) :
    (∀ l ∈ l1 ++ l2, ∀ p : ℤ × ℤ, memRect p l.1 → memRect p r)
    ∧ TilesExactly (l1 ++ l2) r := by
  refine ⟨?_, ?_, ?_⟩
  · intro l hl p hp
    rcases List.mem_append.mp hl with h | h
    · exact (hcover p).mpr (Or.inl (h1sub l h p hp))
    · exact (hcover p).mpr (Or.inr (h2sub l h p hp))
  · apply List.pairwise_append.mpr
    refine ⟨h1tile.1, h2tile.1, ?_⟩
    intro a ha b hb p hpab
    exact hdisj p ⟨h1sub a ha p hpab.1, h2sub b hb p hpab.2⟩
  · intro p
    rw [hcover p, h1tile.2 p, h2tile.2 p]
    constructor
    · rintro (⟨l, hl, hp⟩ | ⟨l, hl, hp⟩)
      · exact ⟨l, List.mem_append.mpr (Or.inl hl), hp⟩
      · exact ⟨l, List.mem_append.mpr (Or.inr hl), hp⟩
    · rintro ⟨l, hl, hp⟩
      rcases List.mem_append.mp hl with h | h
      · exact Or.inl ⟨l, h, hp⟩
      · exact Or.inr ⟨l, h, hp⟩

theorem chunk_split_x (o : WarpOptions)
    (wr : DstRect → SrcWindow → WarpState → CPLErr) (r : DstRect) (st : WarpState)
    (sw : SrcWindow)
    (hcsw : computeSourceWindow o r.xOff r.yOff r.xSize r.ySize = some sw)
    (hmem : totalMemoryUse (srcPixelCostInBits o) (dstPixelCostInBits o) sw r
              > o.dfWarpMemoryLimit ∧ (r.xSize > 2 ∨ r.ySize > 2))
    (hx : r.xSize > r.ySize) :
    chunkAndWarpImage o wr r st =
      (let out1 := chunkAndWarpImage o wr ⟨r.xOff, r.yOff, r.xSize / 2, r.ySize⟩
                     ⟨st.dfProgressBase, qmul st.dfProgressScale (mkRat 1 2)⟩
       if out1.err = CPLErr.ceNone then
         let out2 := chunkAndWarpImage o wr
                       ⟨r.xOff + r.xSize / 2, r.yOff, r.xSize - r.xSize / 2, r.ySize⟩
                       ⟨qadd out1.state.dfProgressBase out1.state.dfProgressScale,
                        out1.state.dfProgressScale⟩
         ⟨out2.err, st, out1.leaves ++ out2.leaves⟩
       else ⟨out1.err, st, out1.leaves⟩) := by
  rw [chunkAndWarpImage, hcsw]
  dsimp only
  rw [dif_pos hmem, dif_pos hx]

theorem chunk_split_y (o : WarpOptions)
    (wr : DstRect → SrcWindow → WarpState → CPLErr) (r : DstRect) (st : WarpState)
    (sw : SrcWindow)
    (hcsw : computeSourceWindow o r.xOff r.yOff r.xSize r.ySize = some sw)
    (hmem : totalMemoryUse (srcPixelCostInBits o) (dstPixelCostInBits o) sw r
              > o.dfWarpMemoryLimit ∧ (r.xSize > 2 ∨ r.ySize > 2))
    (hy : ¬ r.xSize > r.ySize) :
    chunkAndWarpImage o wr r st =
      (let out1 := chunkAndWarpImage o wr ⟨r.xOff, r.yOff, r.xSize, r.ySize / 2⟩
                     ⟨st.dfProgressBase, qmul st.dfProgressScale (mkRat 1 2)⟩
       if out1.err = CPLErr.ceNone then
         let out2 := chunkAndWarpImage o wr
                       ⟨r.xOff, r.yOff + r.ySize / 2, r.xSize, r.ySize - r.ySize / 2⟩
                       ⟨qadd out1.state.dfProgressBase out1.state.dfProgressScale,
                        out1.state.dfProgressScale⟩
         ⟨out2.err, st, out1.leaves ++ out2.leaves⟩
       else ⟨out1.err, st, out1.leaves⟩) := by
  rw [chunkAndWarpImage, hcsw]
  dsimp only
  rw [dif_pos hmem, dif_neg hy]

theorem chunk_leaf_eq (o : WarpOptions)
    (wr : DstRect → SrcWindow → WarpState → CPLErr) (r : DstRect) (st : WarpState)
    (sw : SrcWindow)
    (hcsw : computeSourceWindow o r.xOff r.yOff r.xSize r.ySize = some sw)
    (hmem : ¬ (totalMemoryUse (srcPixelCostInBits o) (dstPixelCostInBits o) sw r
                 > o.dfWarpMemoryLimit ∧ (r.xSize > 2 ∨ r.ySize > 2))) :
    chunkAndWarpImage o wr r st = ⟨wr r sw st, st, [(r, sw)]⟩ := by
  rw [chunkAndWarpImage, hcsw]
  dsimp only
  rw [dif_neg hmem]

theorem chunk_leaves_tile_aux (o : WarpOptions)
    (wr : DstRect → SrcWindow → WarpState → CPLErr) :
    ∀ (n : ℕ) (r : DstRect) (st : WarpState),
      r.xSize.toNat + r.ySize.toNat = n →
      (chunkAndWarpImage o wr r st).err = CPLErr.ceNone →
      (∀ l ∈ (chunkAndWarpImage o wr r st).leaves, ∀ p : ℤ × ℤ,
          memRect p l.1 → memRect p r)
      ∧ TilesExactly (chunkAndWarpImage o wr r st).leaves r := by
  intro n
  induction n using Nat.strong_induction_on with
  | _ n ih =>
  intro r st hn herr
  rcases hcsw : computeSourceWindow o r.xOff r.yOff r.xSize r.ySize with _ | sw
  · rw [chunkAndWarpImage, hcsw] at herr
    exact absurd herr (fun h => CPLErr.noConfusion h)
  · by_cases hmem : totalMemoryUse (srcPixelCostInBits o) (dstPixelCostInBits o) sw r
        > o.dfWarpMemoryLimit ∧ (r.xSize > 2 ∨ r.ySize > 2)
    · have hbig := hmem.2
      by_cases hx : r.xSize > r.ySize
      · have hx3 : r.xSize > 2 := by omega
        rw [chunk_split_x o wr r st sw hcsw hmem hx] at herr ⊢
        dsimp only at herr ⊢
        by_cases h1 : (chunkAndWarpImage o wr ⟨r.xOff, r.yOff, r.xSize / 2, r.ySize⟩
            ⟨st.dfProgressBase, qmul st.dfProgressScale (mkRat 1 2)⟩).err
              = CPLErr.ceNone
        · rw [if_pos h1] at herr ⊢
          dsimp only at herr ⊢
          have ih1 := ih ((r.xSize / 2).toNat + r.ySize.toNat) (by omega)
            ⟨r.xOff, r.yOff, r.xSize / 2, r.ySize⟩
            ⟨st.dfProgressBase, qmul st.dfProgressScale (mkRat 1 2)⟩ rfl h1
          have ih2 := ih ((r.xSize - r.xSize / 2).toNat + r.ySize.toNat) (by omega)
            ⟨r.xOff + r.xSize / 2, r.yOff, r.xSize - r.xSize / 2, r.ySize⟩
            _ rfl herr
          have hcov : ∀ p : ℤ × ℤ, memRect p r ↔
              memRect p (⟨r.xOff, r.yOff, r.xSize / 2, r.ySize⟩ : DstRect)
              ∨ memRect p (⟨r.xOff + r.xSize / 2, r.yOff,
                            r.xSize - r.xSize / 2, r.ySize⟩ : DstRect) := by
            intro p
            simp only [memRect]
            omega
          have hdisj : ∀ p : ℤ × ℤ,
              ¬ (memRect p (⟨r.xOff, r.yOff, r.xSize / 2, r.ySize⟩ : DstRect)
                 ∧ memRect p (⟨r.xOff + r.xSize / 2, r.yOff,
                               r.xSize - r.xSize / 2, r.ySize⟩ : DstRect)) := by
            intro p
            simp only [memRect]
            omega
          exact tiles_combine r _ _ _ _ hcov hdisj ih1.1 ih1.2 ih2.1 ih2.2
        · rw [if_neg h1] at herr
          dsimp only at herr
          exact absurd herr h1
      · have hy3 : r.ySize > 2 := by omega
        rw [chunk_split_y o wr r st sw hcsw hmem hx] at herr ⊢
        dsimp only at herr ⊢
        by_cases h1 : (chunkAndWarpImage o wr ⟨r.xOff, r.yOff, r.xSize, r.ySize / 2⟩
            ⟨st.dfProgressBase, qmul st.dfProgressScale (mkRat 1 2)⟩).err
              = CPLErr.ceNone
        · rw [if_pos h1] at herr ⊢
          dsimp only at herr ⊢
          have ih1 := ih (r.xSize.toNat + (r.ySize / 2).toNat) (by omega)
            ⟨r.xOff, r.yOff, r.xSize, r.ySize / 2⟩
            ⟨st.dfProgressBase, qmul st.dfProgressScale (mkRat 1 2)⟩ rfl h1
          have ih2 := ih (r.xSize.toNat + (r.ySize - r.ySize / 2).toNat) (by omega)
            ⟨r.xOff, r.yOff + r.ySize / 2, r.xSize, r.ySize - r.ySize / 2⟩
            _ rfl herr
          have hcov : ∀ p : ℤ × ℤ, memRect p r ↔
              memRect p (⟨r.xOff, r.yOff, r.xSize, r.ySize / 2⟩ : DstRect)
              ∨ memRect p (⟨r.xOff, r.yOff + r.ySize / 2,
                            r.xSize, r.ySize - r.ySize / 2⟩ : DstRect) := by
            intro p
            simp only [memRect]
            omega
          have hdisj : ∀ p : ℤ × ℤ,
              ¬ (memRect p (⟨r.xOff, r.yOff, r.xSize, r.ySize / 2⟩ : DstRect)
                 ∧ memRect p (⟨r.xOff, r.yOff + r.ySize / 2,
                               r.xSize, r.ySize - r.ySize / 2⟩ : DstRect)) := by
            intro p
            simp only [memRect]
            omega
          exact tiles_combine r _ _ _ _ hcov hdisj ih1.1 ih1.2 ih2.1 ih2.2
        · rw [if_neg h1] at herr
          dsimp only at herr
          exact absurd herr h1
    · rw [chunk_leaf_eq o wr r st sw hcsw hmem]
      dsimp only
      refine ⟨?_, ?_, ?_⟩
      · intro l hl p hp
        rw [List.mem_singleton.mp hl] at hp
        exact hp
      · simp
      · intro p
        constructor
        · intro hp
          exact ⟨(r, sw), List.mem_singleton_self _, hp⟩
        · rintro ⟨l, hl, hp⟩
          rw [List.mem_singleton.mp hl] at hp
          exact hp

/-- C6: for every destination rectangle, when `ChunkAndWarpImage`
succeeds, the leaf chunks on which it invoked `WarpRegion` tile the input
rectangle exactly: the two halves of every split (`[off, off + dim/2)`
and `[off + dim/2, off + dim)` along the longer dimension) are disjoint
with union the parent, so the leaves are pairwise disjoint and cover the
rectangle with no overlap and no gap. -/
theorem c6_chunk_leaves_tile (o : WarpOptions)
    (wr : DstRect → SrcWindow → WarpState → CPLErr) (r : DstRect) (st : WarpState)
    (herr : (chunkAndWarpImage o wr r st).err = CPLErr.ceNone) :
    TilesExactly (chunkAndWarpImage o wr r st).leaves r :=
  (chunk_leaves_tile_aux o wr (r.xSize.toNat + r.ySize.toNat) r st rfl herr).2

set_option maxRecDepth 10000 in
/-- Witness for C6: on the Cubic demo chunk the call succeeds and its
leaf list tiles the destination rectangle `(0, 0, 100, 100)`. -/
theorem c6_chunk_leaves_tile_witness :
    TilesExactly (chunkAndWarpImage oCubicDemo wrOK ⟨0, 0, 100, 100⟩ ⟨0, 1⟩).leaves
      ⟨0, 0, 100, 100⟩ := by
  apply c6_chunk_leaves_tile
  rw [chunkAndWarpImage]
  dsimp only
  rw [show computeSourceWindow oCubicDemo 0 0 100 100 = some ⟨102, 52, 101, 11⟩
      from by decide]
  dsimp only
  rw [dif_neg (by decide)]
  rfl

theorem getD_set_self {α : Type} :
    ∀ (l : List α) (n : ℕ) (a d : α), n < l.length → (l.set n a).getD n d = a := by
  intro l
  induction l with
  | nil => intro n a d h; simp at h
  | cons x xs ih =>
    intro n a d h
    cases n with
    | zero => simp
    | succ m =>
      simp only [List.set_cons_succ, List.getD_cons_succ]
      exact ih m a d (by simpa using h)

theorem ediv_eight_eq_ceil (z : ℤ) : (z + 7) / 8 = ⌈(z : ℚ) / 8⌉ := by
  have hq1 : 8 * ((z + 7) / 8) ≤ z + 7 := by omega
  have hq2 : z + 7 < 8 * ((z + 7) / 8) + 8 := by omega
  symm
  rw [Int.ceil_eq_iff]
  constructor
  · rw [sub_lt_iff_lt_add,
        show ((z : ℚ) / 8 + 1 : ℚ) = ((z : ℚ) + 8) / 8 from by ring,
        lt_div_iff₀ (by norm_num : (0 : ℚ) < 8)]
    have hz : ((z + 7) / 8) * 8 < z + 8 := by omega
    exact_mod_cast hz
  · rw [div_le_iff₀ (by norm_num : (0 : ℚ) < 8)]
    have hz : z ≤ ((z + 7) / 8) * 8 := by omega
    exact_mod_cast hz

theorem getD_replicate {α : Type} :
    ∀ (n i : ℕ) (a : α), (List.replicate n a).getD i a = a := by
  intro n
  induction n with
  | zero => intro i a; simp
  | succ m ih =>
    intro i a
    cases i with
    | zero => simp [List.replicate]
    | succ j => simp only [List.replicate, List.getD_cons_succ]; exact ih j a

theorem ckm_bsv_some (k : GDALWarpKernel) (b : ℤ) (l : List (Option (List ℕ)))
    (m : List ℕ) (hl : k.papanBandSrcValid = some l)
    (hm : l.getD b.toNat none = some m) :
    createKernelMask k b "BandSrcValid" = (CPLErr.ceNone, k) := by
  rw [createKernelMask, if_pos (by decide)]
  dsimp only
  rw [hl]
  simp only [Option.getD_some]
  rw [hm, ← hl]

theorem ckm_bsv_none (k : GDALWarpKernel) (b : ℤ)
    (h : (k.papanBandSrcValid.getD (List.replicate k.nBands.toNat none)).getD
           b.toNat none = none) :
    createKernelMask k b "BandSrcValid"
      = (CPLErr.ceNone, { k with papanBandSrcValid := some (bandSrcValidAlloc k b) }) := by
  rw [createKernelMask, if_pos (by decide)]
  dsimp only
  rw [h]
  rfl

/-- C9: `CreateKernelMask` is idempotent for every known plane name: when
the selected slot is already non-null it returns success without
modifying the plane; otherwise it allocates `ceil(W*H/8)` bytes for a
1-bit plane (`BandSrcValid`, `UnifiedSrcValid`, `DstValid`, memset with
`0xFF`) or `W*H*4` bytes for a 32-bit density plane (`UnifiedSrcDensity`,
`DstDensity`, memset with `0`), using the source window size for source
planes and the destination window size for destination planes; an
unknown name returns failure. -/
theorem c9_createKernelMask_contract :
    (∀ (k : GDALWarpKernel) (b : ℤ) (l : List (Option (List ℕ))) (m : List ℕ),
        k.papanBandSrcValid = some l → l.getD b.toNat none = some m →
        createKernelMask k b "BandSrcValid" = (CPLErr.ceNone, k))
    ∧ (∀ (k : GDALWarpKernel) (b : ℤ),
        (k.papanBandSrcValid.getD (List.replicate k.nBands.toNat none)).getD b.toNat none
            = none →
        createKernelMask k b "BandSrcValid"
          = (CPLErr.ceNone, { k with papanBandSrcValid := some (bandSrcValidAlloc k b) }))
    ∧ (∀ (k : GDALWarpKernel) (b : ℤ) (m : List ℕ),
        k.panUnifiedSrcValid = some m →
        createKernelMask k b "UnifiedSrcValid" = (CPLErr.ceNone, k))
    ∧ (∀ (k : GDALWarpKernel) (b : ℤ),
        k.panUnifiedSrcValid = none →
        createKernelMask k b "UnifiedSrcValid"
          = (CPLErr.ceNone, { k with panUnifiedSrcValid := some (List.replicate ((k.nSrcXSize * k.nSrcYSize + 7) / 8).toNat 255) }))
    ∧ (∀ (k : GDALWarpKernel) (b : ℤ) (m : List ℕ),
        k.pafUnifiedSrcDensity = some m →
        createKernelMask k b "UnifiedSrcDensity" = (CPLErr.ceNone, k))
    ∧ (∀ (k : GDALWarpKernel) (b : ℤ),
        k.pafUnifiedSrcDensity = none →
        createKernelMask k b "UnifiedSrcDensity"
          = (CPLErr.ceNone, { k with pafUnifiedSrcDensity := some (List.replicate (k.nSrcXSize * k.nSrcYSize * 4).toNat 0) }))
    ∧ (∀ (k : GDALWarpKernel) (b : ℤ) (m : List ℕ),
        k.panDstValid = some m →
        createKernelMask k b "DstValid" = (CPLErr.ceNone, k))
    ∧ (∀ (k : GDALWarpKernel) (b : ℤ),
        k.panDstValid = none →
        createKernelMask k b "DstValid"
          = (CPLErr.ceNone, { k with panDstValid := some (List.replicate ((k.nDstXSize * k.nDstYSize + 7) / 8).toNat 255) }))
    ∧ (∀ (k : GDALWarpKernel) (b : ℤ) (m : List ℕ),
        k.pafDstDensity = some m →
        createKernelMask k b "DstDensity" = (CPLErr.ceNone, k))
    ∧ (∀ (k : GDALWarpKernel) (b : ℤ),
        k.pafDstDensity = none →
        createKernelMask k b "DstDensity"
          = (CPLErr.ceNone, { k with pafDstDensity := some (List.replicate (k.nDstXSize * k.nDstYSize * 4).toNat 0) }))
    ∧ (∀ (k : GDALWarpKernel) (b : ℤ) (t : String),
        knownMaskName t = false →
        createKernelMask k b t = (CPLErr.ceFailure, k))
    ∧ (∀ (k : GDALWarpKernel) (b : ℤ),
        0 ≤ b → b < k.nBands →
        (∀ l, k.papanBandSrcValid = some l → l.length = k.nBands.toNat) →
        createKernelMask (createKernelMask k b "BandSrcValid").2 b "BandSrcValid"
          = (CPLErr.ceNone, (createKernelMask k b "BandSrcValid").2))
    ∧ (∀ z : ℤ, (z + 7) / 8 = ⌈(z : ℚ) / 8⌉) := by
  refine ⟨ckm_bsv_some, ckm_bsv_none, ?_, ?_, ?_, ?_, ?_, ?_, ?_, ?_, ?_, ?_,
          ediv_eight_eq_ceil⟩
  · intro k b m hm
    rw [createKernelMask, if_neg (by decide), if_pos (by decide), hm]
  · intro k b hm
    rw [createKernelMask, if_neg (by decide), if_pos (by decide), hm]
    rfl
  · intro k b m hm
    rw [createKernelMask, if_neg (by decide), if_neg (by decide), if_pos (by decide), hm]
  · intro k b hm
    rw [createKernelMask, if_neg (by decide), if_neg (by decide), if_pos (by decide), hm]
    rfl
  · intro k b m hm
    rw [createKernelMask, if_neg (by decide), if_neg (by decide), if_neg (by decide),
        if_pos (by decide), hm]
  · intro k b hm
    rw [createKernelMask, if_neg (by decide), if_neg (by decide), if_neg (by decide),
        if_pos (by decide), hm]
    rfl
  · intro k b m hm
    rw [createKernelMask, if_neg (by decide), if_neg (by decide), if_neg (by decide),
        if_neg (by decide), if_pos (by decide), hm]
  · intro k b hm
    rw [createKernelMask, if_neg (by decide), if_neg (by decide), if_neg (by decide),
        if_neg (by decide), if_pos (by decide), hm]
    rfl
  · intro k b t h
    simp only [knownMaskName, Bool.or_eq_false_iff] at h
    obtain ⟨⟨⟨⟨h1, h2⟩, h3⟩, h4⟩, h5⟩ := h
    rw [createKernelMask, if_neg (by simp [h1]), if_neg (by simp [h2]),
        if_neg (by simp [h3]), if_neg (by simp [h4]), if_neg (by simp [h5])]
  · intro k b hb0 hbn hinv
    have hbnat : b.toNat < k.nBands.toNat := by omega
    cases hpp : k.papanBandSrcValid with
    | none =>
      have hslot : (k.papanBandSrcValid.getD (List.replicate k.nBands.toNat none)).getD
          b.toNat none = none := by
        rw [hpp]
        simp only [Option.getD_none]
        by_cases hlt : b.toNat < k.nBands.toNat
        · exact getD_replicate _ _ _
        · exact absurd hbnat hlt
      rw [ckm_bsv_none k b hslot]
      dsimp only
      refine ckm_bsv_some _ b (bandSrcValidAlloc k b)
        (List.replicate ((k.nSrcXSize * k.nSrcYSize + 7) / 8).toNat 255) rfl ?_
      rw [bandSrcValidAlloc]
      apply getD_set_self
      rw [hpp]
      simpa using hbnat
    | some l =>
      have hlen := hinv l hpp
      cases hslot : l.getD b.toNat none with
      | some m =>
        rw [ckm_bsv_some k b l m hpp hslot]
        dsimp only
        exact ckm_bsv_some k b l m hpp hslot
      | none =>
        have hslot' : (k.papanBandSrcValid.getD (List.replicate k.nBands.toNat none)).getD
            b.toNat none = none := by
          rw [hpp]
          simpa only [Option.getD_some] using hslot
        rw [ckm_bsv_none k b hslot']
        dsimp only
        refine ckm_bsv_some _ b (bandSrcValidAlloc k b)
          (List.replicate ((k.nSrcXSize * k.nSrcYSize + 7) / 8).toNat 255) rfl ?_
        rw [bandSrcValidAlloc]
        apply getD_set_self
        rw [hpp]
        simp only [Option.getD_some]
        omega

/-- Witness for C9: allocating `BandSrcValid[0]` on the demo kernel
produces a 2-byte (`ceil(4*3/8)`) buffer of `0xFF`, `UnifiedSrcDensity` a
48-byte (`4*3*4`) buffer of `0`, `DstValid` a 2-byte (`ceil(5*2/8)`)
buffer of `0xFF`; an unknown name fails; a second `BandSrcValid[0]` call
leaves the kernel untouched. -/
theorem c9_createKernelMask_contract_witness :
    createKernelMask kDemo 0 "BandSrcValid"
      = (CPLErr.ceNone, { kDemo with papanBandSrcValid := some [some (List.replicate 2 255), none] })
    ∧ createKernelMask kDemo 0 "UnifiedSrcDensity"
      = (CPLErr.ceNone, { kDemo with pafUnifiedSrcDensity := some (List.replicate 48 0) })
    ∧ createKernelMask kDemo 0 "DstValid"
      = (CPLErr.ceNone, { kDemo with panDstValid := some (List.replicate 2 255) })
    ∧ createKernelMask kDemo 0 "Bogus" = (CPLErr.ceFailure, kDemo)
    ∧ createKernelMask (createKernelMask kDemo 0 "BandSrcValid").2 0 "BandSrcValid"
      = (CPLErr.ceNone, (createKernelMask kDemo 0 "BandSrcValid").2) := by
  have h := c9_createKernelMask_contract
  refine ⟨(h.2.1 kDemo 0 (by decide)).trans (by decide),
          (h.2.2.2.2.2.1 kDemo 0 rfl).trans (by decide),
          (h.2.2.2.2.2.2.2.1 kDemo 0 rfl).trans (by decide),
          h.2.2.2.2.2.2.2.2.2.2.1 kDemo 0 "Bogus" (by decide),
          h.2.2.2.2.2.2.2.2.2.2.2.1 kDemo 0 (by decide) (by decide)
            (fun l hl => Option.noConfusion hl)⟩
